import Mathlib

/- Shallow embedding of the gerber-viewer rendering core (src/renderer.rs and
demo/src/main.rs).  Coordinates are embedded as rationals; the floating-point
`f32`/`f64` values of the source are modelled as exact arithmetic.  Parts of
the library that the renderer calls but that are not under src/ (the geometry
extension traits, the layer construction, the view-state methods) are modelled
from the specification; each such definition carries a doc comment starting
with "Modelled from the spec:". -/

namespace GerberViewer

/-- A 2-dimensional point or vector (the source uses egui `Pos2`/`Vec2` and
nalgebra `Point2<f64>`/`Vector2<f64>`; all are pairs of coordinates). -/
structure Vec2 where
  x : ℚ
  y : ℚ
deriving DecidableEq

@[ext] theorem Vec2.ext {a b : Vec2} (hx : a.x = b.x) (hy : a.y = b.y) : a = b := by
  cases a; cases b; simp_all

instance : Add Vec2 := ⟨fun a b => ⟨a.x + b.x, a.y + b.y⟩⟩

instance : Sub Vec2 := ⟨fun a b => ⟨a.x - b.x, a.y - b.y⟩⟩

instance : Neg Vec2 := ⟨fun a => ⟨-a.x, -a.y⟩⟩

instance : HMul Vec2 ℚ Vec2 := ⟨fun a k => ⟨a.x * k, a.y * k⟩⟩

instance : HDiv Vec2 ℚ Vec2 := ⟨fun a k => ⟨a.x / k, a.y / k⟩⟩

@[simp] theorem Vec2.add_x (a b : Vec2) : (a + b).x = a.x + b.x := rfl

@[simp] theorem Vec2.add_y (a b : Vec2) : (a + b).y = a.y + b.y := rfl

@[simp] theorem Vec2.sub_x (a b : Vec2) : (a - b).x = a.x - b.x := rfl

@[simp] theorem Vec2.sub_y (a b : Vec2) : (a - b).y = a.y - b.y := rfl

@[simp] theorem Vec2.neg_x (a : Vec2) : (-a).x = -a.x := rfl

@[simp] theorem Vec2.neg_y_comp (a : Vec2) : (-a).y = -a.y := rfl

@[simp] theorem Vec2.mul_x (a : Vec2) (k : ℚ) : (a * k).x = a.x * k := rfl

@[simp] theorem Vec2.mul_y (a : Vec2) (k : ℚ) : (a * k).y = a.y * k := rfl

@[simp] theorem Vec2.div_x (a : Vec2) (k : ℚ) : (a / k).x = a.x / k := rfl

@[simp] theorem Vec2.div_y (a : Vec2) (k : ℚ) : (a / k).y = a.y / k := rfl

/-- Negate the Y coordinate: the single shape-space → screen-space Y flip
(shape space is Y-up, the rendering surface is Y-down). -/
def Vec2.negY (a : Vec2) : Vec2 := ⟨a.x, -a.y⟩

/-- Colors are abstract identifiers; the render pipeline only moves them
around (egui `Color32` in the source). -/
abbrev Color := ℕ

def colorTransparent : Color := 0

def colorGreen : Color := 2

def colorRed : Color := 3

/-- A 3×3 homogeneous matrix (nalgebra `Matrix3<f64>` in the source). -/
structure Matrix3 where
  m00 : ℚ
  m01 : ℚ
  m02 : ℚ
  m10 : ℚ
  m11 : ℚ
  m12 : ℚ
  m20 : ℚ
  m21 : ℚ
  m22 : ℚ
deriving DecidableEq

/-- Full 3×3 matrix product, as `image_transform_matrix * render_transform_matrix`
in the source (`Mul` on nalgebra matrices). -/
def matMul (a b : Matrix3) : Matrix3 :=
  ⟨a.m00 * b.m00 + a.m01 * b.m10 + a.m02 * b.m20,
   a.m00 * b.m01 + a.m01 * b.m11 + a.m02 * b.m21,
   a.m00 * b.m02 + a.m01 * b.m12 + a.m02 * b.m22,
   a.m10 * b.m00 + a.m11 * b.m10 + a.m12 * b.m20,
   a.m10 * b.m01 + a.m11 * b.m11 + a.m12 * b.m21,
   a.m10 * b.m02 + a.m11 * b.m12 + a.m12 * b.m22,
   a.m20 * b.m00 + a.m21 * b.m10 + a.m22 * b.m20,
   a.m20 * b.m01 + a.m21 * b.m11 + a.m22 * b.m21,
   a.m20 * b.m02 + a.m21 * b.m12 + a.m22 * b.m22⟩

/-- Modelled from the spec: the `Matrix3Pos2Ext::transform_pos2` extension
trait lives in geometry.rs, which is not under src/.  §4.1 describes the
composed transform as "one 3×3 homogeneous affine matrix" applied to a point,
so the application is the affine action of the top two rows. -/
def transformPos2 (m : Matrix3) (p : Vec2) : Vec2 :=
  ⟨m.m00 * p.x + m.m01 * p.y + m.m02,
   m.m10 * p.x + m.m11 * p.y + m.m12⟩

/-- The matrix is affine: its bottom homogeneous row is (0, 0, 1). -/
def Matrix3.isAffine (m : Matrix3) : Prop := m.m20 = 0 ∧ m.m21 = 0 ∧ m.m22 = 1

instance (m : Matrix3) : Decidable m.isAffine := by
  unfold Matrix3.isAffine; infer_instance

def identityMatrix : Matrix3 := ⟨1, 0, 0, 0, 1, 0, 0, 0, 1⟩

/-- Modelled from the spec: §4.1 requires "an explicit epsilon (not exact
equality)" for the axis-alignment and rotation tests, to absorb numerical
noise from repeated trig evaluation; the concrete value is a small positive
tolerance. -/
def eps : ℚ := 1 / 100000

/-- Modelled from the spec: `is_axis_aligned` lives in geometry.rs, which is
not under src/.  §4.1 describes off-diagonal linear-part entries within
tolerance of zero; §8 additionally requires rotations by 90° and 270° (whose
off-diagonal entries are non-zero while the diagonal vanishes) to pass the
test, so the test accepts linear parts that map each coordinate axis onto a
coordinate axis: off-diagonal near zero, or diagonal near zero. -/
def Matrix3.isAxisAligned (m : Matrix3) : Prop :=
  (|m.m01| < eps ∧ |m.m10| < eps) ∨ (|m.m00| < eps ∧ |m.m11| < eps)

instance (m : Matrix3) : Decidable m.isAxisAligned := by
  unfold Matrix3.isAxisAligned; infer_instance

/-- Modelled from the spec: `is_90_or_270_rotation` lives in geometry.rs,
which is not under src/.  §4.1: "true iff the linear part is axis-aligned but
swaps the roles of X and Y (diagonal near-zero, off-diagonal non-zero)". -/
def Matrix3.is90or270Rotation (m : Matrix3) : Prop :=
  |m.m00| < eps ∧ |m.m11| < eps ∧ eps ≤ |m.m01| ∧ eps ≤ |m.m10|

instance (m : Matrix3) : Decidable m.is90or270Rotation := by
  unfold Matrix3.is90or270Rotation; infer_instance

/-- Modelled from the spec: `get_scaling_factors` lives in geometry.rs, which
is not under src/.  §4.1: the per-axis scale factors are "the lengths of the
matrix's column vectors (the transformed unit basis vectors)".  A length is
characterized by being nonnegative with square equal to the squared norm of
the column of the 2×2 linear part. -/
def IsScalingFactors (m : Matrix3) (s : Vec2) : Prop :=
  0 ≤ s.x ∧ s.x ^ 2 = m.m00 ^ 2 + m.m10 ^ 2 ∧
  0 ≤ s.y ∧ s.y ^ 2 = m.m01 ^ 2 + m.m11 ^ 2

instance (m : Matrix3) (s : Vec2) : Decidable (IsScalingFactors m s) := by
  unfold IsScalingFactors; infer_instance

/-- The pan/zoom view state (`ViewState` in the library): a screen-space
translation and a uniform scale. -/
structure ViewState where
  translation : Vec2
  scale : ℚ
deriving DecidableEq

/-- A screen rectangle (egui `Rect`), as min/max corners. -/
structure Rect where
  min : Vec2
  max : Vec2
deriving DecidableEq

def Rect.width (r : Rect) : ℚ := r.max.x - r.min.x

def Rect.height (r : Rect) : ℚ := r.max.y - r.min.y

def Rect.center (r : Rect) : Vec2 := (r.min + r.max) / (2 : ℚ)

/-- An axis-aligned bounding box in gerber (shape-space) coordinates. -/
structure BoundingBox where
  min : Vec2
  max : Vec2
deriving DecidableEq

def BoundingBox.width (b : BoundingBox) : ℚ := b.max.x - b.min.x

def BoundingBox.height (b : BoundingBox) : ℚ := b.max.y - b.min.y

def BoundingBox.center (b : BoundingBox) : Vec2 := (b.min + b.max) / (2 : ℚ)

def BoundingBox.extend (b : BoundingBox) (q : Vec2) : BoundingBox :=
  ⟨⟨Min.min b.min.x q.x, Min.min b.min.y q.y⟩,
   ⟨Max.max b.max.x q.x, Max.max b.max.y q.y⟩⟩

/-- Modelled from the spec: `BoundingBox::from_points` lives outside src/.
§4.4: "returns the minimal axis-aligned box containing all points; fails only
on an empty input (defined as returning a degenerate/empty box, not an
error)". -/
def BoundingBox.fromPoints : List Vec2 → BoundingBox
  | [] => ⟨⟨0, 0⟩, ⟨0, 0⟩⟩
  | p :: rest => rest.foldl BoundingBox.extend ⟨p, p⟩

/-- Modelled from the spec: §4.4 — `vertices()` returns the four corners in a
fixed, documented order, clockwise from bottom-left. -/
def BoundingBox.vertices (b : BoundingBox) : List Vec2 :=
  [b.min, ⟨b.min.x, b.max.y⟩, b.max, ⟨b.max.x, b.min.y⟩]

/-- Modelled from the spec: §4.4 — `apply_transform_matrix(M)` returns the
axis-aligned box enclosing the four corners each individually transformed by
`M` ("transform the hull, then re-bound"). -/
def BoundingBox.applyTransformMatrix (b : BoundingBox) (m : Matrix3) : BoundingBox :=
  BoundingBox.fromPoints (b.vertices.map (transformPos2 m))

def BoundingBox.expandBy (b : BoundingBox) (r : ℚ) : BoundingBox :=
  ⟨b.min - ⟨r, r⟩, b.max + ⟨r, r⟩⟩

/-- The exposure flag of a primitive: `Add` or `Subtract` paint semantics. -/
inductive Exposure where
  | add
  | subtract
deriving DecidableEq

/-- Modelled from the spec: `Exposure::to_color` lives outside src/.  §3: the
exposure "governs only the color look-up applied at render time (subtract
exposures recolor rather than perform boolean subtraction)"; the subtract
recoloring is a fixed background color. -/
def Exposure.toColor (e : Exposure) (c : Color) : Color :=
  match e with
  | .add => c
  | .subtract => 1

/-- Modelled from the spec: `color::generate_pastel_color` lives outside
src/; §6 — unique-per-shape coloring derives a color from the shape index. -/
def generatePastelColor (index : ℕ) : Color := index + 16

/-- `CircleGerberPrimitive` from the layer model. -/
structure CircleGerberPrimitive where
  center : Vec2
  diameter : ℚ
  exposure : Exposure
deriving DecidableEq

/-- `RectangleGerberPrimitive`: origin is the bottom-left corner. -/
structure RectangleGerberPrimitive where
  origin : Vec2
  width : ℚ
  height : ℚ
  exposure : Exposure
deriving DecidableEq

/-- `LineGerberPrimitive`: a stroked segment with round caps of radius
width/2 (`end` is a Lean keyword, hence `end_`). -/
structure LineGerberPrimitive where
  start : Vec2
  end_ : Vec2
  width : ℚ
  exposure : Exposure
deriving DecidableEq

/-- Arc winding direction. -/
inductive Direction where
  | clockwise
  | counterclockwise
deriving DecidableEq

/-- `ArcGerberPrimitive` from the layer model; angles in radians. -/
structure ArcGerberPrimitive where
  center : Vec2
  radius : ℚ
  start_angle : ℚ
  end_angle : ℚ
  direction : Direction
  width : ℚ
  exposure : Exposure
deriving DecidableEq

/-- Precomputed tessellation of a non-convex polygon: a flat vertex list plus
triangle index triples (flattened). -/
structure PolygonTessellation where
  vertices : List Vec2
  indices : List ℕ
deriving DecidableEq

/-- `PolygonGeometry`: vertex ring relative to the center, convexity flag,
and the optional precomputed tessellation (present only for non-convex
rings, and absent when tessellation failed). -/
structure PolygonGeometry where
  relative_vertices : List Vec2
  is_convex : Bool
  tessellation : Option PolygonTessellation
deriving DecidableEq

/-- `PolygonGerberPrimitive` from the layer model. -/
structure PolygonGerberPrimitive where
  center : Vec2
  exposure : Exposure
  geometry : PolygonGeometry
deriving DecidableEq

/-- The closed tagged union of primitive kinds (`GerberPrimitive`). -/
inductive GerberPrimitive where
  | circle (c : CircleGerberPrimitive)
  | rectangle (r : RectangleGerberPrimitive)
  | line (l : LineGerberPrimitive)
  | arc (a : ArcGerberPrimitive)
  | polygon (p : PolygonGerberPrimitive)
deriving DecidableEq

/-- Replace the exposure flag of a primitive, leaving all geometry fields
unchanged. -/
def GerberPrimitive.setExposure : GerberPrimitive → Exposure → GerberPrimitive
  | .circle c, e => .circle { c with exposure := e }
  | .rectangle r, e => .rectangle { r with exposure := e }
  | .line l, e => .line { l with exposure := e }
  | .arc a, e => .arc { a with exposure := e }
  | .polygon p, e => .polygon { p with exposure := e }

/-- Modelled from the spec: the fixed minimum segment count of the arc
generator (§4.2 — "fixed minimum segment count guards degenerate zero-sweep
arcs"). -/
def minimumSegments : ℕ := 16

/-- Modelled from the spec: the smoothness constant making the "angular step
count scale with swept angle" (§4.2). -/
def segmentsPerRadian : ℚ := 8

def sweepMagnitude (a : ArcGerberPrimitive) : ℚ := |a.end_angle - a.start_angle|

/-- Number of angular segments of the generated arc polyline: proportional to
the swept angle, with the fixed minimum floor. -/
def numSegments (a : ArcGerberPrimitive) : ℕ :=
  Max.max minimumSegments (Int.toNat ⌈segmentsPerRadian * sweepMagnitude a⌉)

/-- Modelled from the spec: §4.2 — "direction determines the sign of angular
increment". -/
def dirSign : Direction → ℚ
  | .clockwise => -1
  | .counterclockwise => 1

/-- Rational stand-in for the cosine used by the arc discretization (a
truncated Taylor series); no claim depends on the values of the generated
points, only on their count and on how they are transformed. -/
def cosQ (t : ℚ) : ℚ := 1 - t ^ 2 / 2 + t ^ 4 / 24

/-- Rational stand-in for the sine used by the arc discretization (a
truncated Taylor series). -/
def sinQ (t : ℚ) : ℚ := t - t ^ 3 / 6 + t ^ 5 / 120

/-- Modelled from the spec: `generate_points` lives in layer.rs, which is not
under src/.  §4.2: "produce a finite, non-lazy ordered sequence of shape-space
points approximating the arc" (points are relative to the arc center, which
the renderer adds back); the step count scales with the swept angle with a
fixed minimum, and the direction signs the angular increment. -/
def generatePoints (a : ArcGerberPrimitive) : List Vec2 :=
  let n := numSegments a
  (List.range (n + 1)).map (fun (k : ℕ) =>
    let t := a.start_angle + dirSign a.direction * sweepMagnitude a * (k : ℚ) / (n : ℚ)
    ⟨a.radius * cosQ t, a.radius * sinQ t⟩)

/-- Modelled from the spec: §4.2 — the "is full circle" flag holds when the
swept angle covers a full turn up to a tolerance (rational approximation of
2π). -/
def ArcGerberPrimitive.isFullCircle (a : ArcGerberPrimitive) : Bool :=
  decide (710 / 113 - 1 / 1000 ≤ sweepMagnitude a)

/-- Modelled from the spec: the `WithBoundingBox` impl for circles lives
outside src/; the minimal axis-aligned box of the disk. -/
def CircleGerberPrimitive.boundingBox (c : CircleGerberPrimitive) : BoundingBox :=
  ⟨c.center - ⟨c.diameter / 2, c.diameter / 2⟩, c.center + ⟨c.diameter / 2, c.diameter / 2⟩⟩

/-- Modelled from the spec: the `WithBoundingBox` impl for rectangles lives
outside src/; origin is the bottom-left corner. -/
def RectangleGerberPrimitive.boundingBox (r : RectangleGerberPrimitive) : BoundingBox :=
  ⟨r.origin, r.origin + ⟨r.width, r.height⟩⟩

/-- Modelled from the spec: the `WithBoundingBox` impl for lines lives
outside src/; the capsule's box is the endpoints' box expanded by the cap
radius width/2. -/
def LineGerberPrimitive.boundingBox (l : LineGerberPrimitive) : BoundingBox :=
  (BoundingBox.fromPoints [l.start, l.end_]).expandBy (l.width / 2)

/-- Modelled from the spec: the `WithBoundingBox` impl for arcs lives outside
src/; the box of the generated polyline expanded by half the stroke width. -/
def ArcGerberPrimitive.boundingBox (a : ArcGerberPrimitive) : BoundingBox :=
  (BoundingBox.fromPoints ((generatePoints a).map (fun p => a.center + p))).expandBy (a.width / 2)

/-- Modelled from the spec: the `WithBoundingBox` impl for polygons lives
outside src/; the box of the absolute vertex ring. -/
def PolygonGerberPrimitive.boundingBox (p : PolygonGerberPrimitive) : BoundingBox :=
  BoundingBox.fromPoints (p.geometry.relative_vertices.map (fun v0 => p.center + v0))

/-- The draw operations the renderer emits to the rendering surface (§6):
filled circle, stroked segment, filled rectangle, filled convex polygon,
stroked (possibly closed) polyline with a fill color, indexed triangle mesh
(each mesh vertex carries a color, as egui `Vertex` does), and debug text. -/
inductive DrawCall where
  | circle (center : Vec2) (radius : ℚ) (color : Color)
  | lineSegment (p0 p1 : Vec2) (strokeWidth : ℚ) (color : Color)
  | rect (topLeft : Vec2) (size : Vec2) (color : Color)
  | convexPolygon (points : List Vec2) (color : Color)
  | path (points : List Vec2) (closed : Bool) (fill : Color) (strokeWidth : ℚ) (strokeColor : Color)
  | mesh (vertices : List (Vec2 × Color)) (indices : List ℕ)
  | text (pos : Vec2) (content : ℕ) (fontSize : ℚ) (color : Color)
deriving DecidableEq

/-- `RenderConfiguration` (renderer.rs): the four debug/coloring toggles. -/
structure RenderConfiguration where
  use_unique_shape_colors : Bool
  use_shape_numbering : Bool
  use_vertex_numbering : Bool
  use_shape_bboxes : Bool
deriving DecidableEq

/-- The `Default` impl of `RenderConfiguration`: every toggle off. -/
def defaultConfiguration : RenderConfiguration := ⟨false, false, false, false⟩

/-- The renderer's composed transform (renderer.rs, `GerberRenderer::new`):
`transform_matrix = image_transform_matrix * render_transform_matrix`. -/
def composedTransformMatrix (imageTransformMatrix renderTransformMatrix : Matrix3) : Matrix3 :=
  matMul imageTransformMatrix renderTransformMatrix

/-- `GerberRenderer::gerber_to_screen_coordinates` (renderer.rs): negate Y,
apply the composed matrix, scale by the view scale and add the view
translation. -/
def gerberToScreenCoordinates (view : ViewState) (m : Matrix3) (position : Vec2) : Vec2 :=
  let position : Vec2 := ⟨position.x, -position.y⟩
  view.translation + transformPos2 m position * view.scale

/-- The two addressing modes of `draw_shape_number` (renderer.rs). -/
inductive ShapeNumberPosition where
  | transformed (p : Vec2)
  | untransformed (p : Vec2)

/-- `draw_shape_number` (renderer.rs): green monospace text at the (possibly
still untransformed) position; no draw call when numbering is off. -/
def drawShapeNumber (view : ViewState) (m : Matrix3) (position : ShapeNumberPosition)
    (shapeNumber : Option ℕ) : List DrawCall :=
  match shapeNumber with
  | none => []
  | some n =>
    let pos := match position with
      | .transformed p => p
      | .untransformed p => view.translation + transformPos2 m p * view.scale
    [DrawCall.text pos n 16 colorGreen]

/-- The `draw_bbox!` macro (renderer.rs): when enabled, stroke the shape's
bounding box as a closed transparent-filled path of width 1 (the conversion
of the gerber-space `BoundingBox` into an egui `Rect` is not under src/ and
is modelled as keeping the min/max corners). -/
def drawBbox (configuration : RenderConfiguration) (bbox : BoundingBox) (color : Color)
    (view : ViewState) (transformMatrix : Matrix3) : List DrawCall :=
  if configuration.use_shape_bboxes then
    let center := bbox.center
    let screenCenter : Vec2 := ⟨center.x, -center.y⟩
    let hw := bbox.width / 2
    let hh := bbox.height / 2
    let corners : List Vec2 := [⟨-hw, -hh⟩, ⟨hw, -hh⟩, ⟨hw, hh⟩, ⟨-hw, hh⟩]
    let points := corners.map (fun corner =>
      view.translation + transformPos2 transformMatrix (screenCenter + corner) * view.scale)
    [DrawCall.path points true colorTransparent 1 color]
  else []

/-- `Renderable for CircleGerberPrimitive` (renderer.rs). -/
def renderCircle (self : CircleGerberPrimitive) (view : ViewState) (transformMatrix : Matrix3)
    (transformScaling : Vec2) (color : Color) (shapeNumber : Option ℕ)
    (configuration : RenderConfiguration) : List DrawCall :=
  let color := self.exposure.toColor color
  let screenCenter : Vec2 := ⟨self.center.x, -self.center.y⟩
  let center := view.translation + transformPos2 transformMatrix screenCenter * view.scale
  let diameter := self.diameter * transformScaling.x
  let radius := diameter / 2 * view.scale
  [DrawCall.circle center radius color]
    ++ drawBbox configuration self.boundingBox color view transformMatrix
    ++ drawShapeNumber view transformMatrix (.transformed center) shapeNumber

/-- `Renderable for RectangleGerberPrimitive` (renderer.rs): the axis-aligned
fast path (with the width/height swap on 90°/270° rotations) or the
four-corner polygon fallback. -/
def renderRectangle (self : RectangleGerberPrimitive) (view : ViewState)
    (transformMatrix : Matrix3) (transformScaling : Vec2) (color : Color)
    (shapeNumber : Option ℕ) (configuration : RenderConfiguration) : List DrawCall :=
  let color := self.exposure.toColor color
  let screenCenter : Vec2 := ⟨self.origin.x + self.width / 2, -(self.origin.y + self.height / 2)⟩
  let center := view.translation + transformPos2 transformMatrix screenCenter * view.scale
  (if transformMatrix.isAxisAligned then
    let wh : ℚ × ℚ :=
      if transformMatrix.is90or270Rotation then (self.height, self.width)
      else (self.width, self.height)
    let w := wh.1 * transformScaling.x
    let h := wh.2 * transformScaling.y
    let size : Vec2 := (⟨w, h⟩ : Vec2) * view.scale
    let topLeft := center - size / (2 : ℚ)
    [DrawCall.rect topLeft size color]
  else
    let hw := self.width / 2
    let hh := self.height / 2
    let corners : List Vec2 := [⟨-hw, -hh⟩, ⟨hw, -hh⟩, ⟨hw, hh⟩, ⟨-hw, hh⟩]
    let screenCorners := corners.map (fun corner =>
      view.translation + transformPos2 transformMatrix (screenCenter + corner) * view.scale)
    [DrawCall.convexPolygon screenCorners color])
    ++ drawBbox configuration self.boundingBox color view transformMatrix
    ++ drawShapeNumber view transformMatrix (.transformed center) shapeNumber

/-- `Renderable for LineGerberPrimitive` (renderer.rs): a stroked segment of
width `width * view.scale` plus two end-cap circles of radius
`width / 2 * view.scale`; the `transform_scaling` parameter is unused in the
source (`_transform_scaling`). -/
def renderLine (self : LineGerberPrimitive) (view : ViewState) (transformMatrix : Matrix3)
    (_transformScaling : Vec2) (color : Color) (shapeNumber : Option ℕ)
    (configuration : RenderConfiguration) : List DrawCall :=
  let color := self.exposure.toColor color
  let startPosition : Vec2 := ⟨self.start.x, -self.start.y⟩
  let endPosition : Vec2 := ⟨self.end_.x, -self.end_.y⟩
  let transformedStartPosition :=
    view.translation + transformPos2 transformMatrix startPosition * view.scale
  let transformedEndPosition :=
    view.translation + transformPos2 transformMatrix endPosition * view.scale
  let radius := self.width / 2 * view.scale
  [DrawCall.lineSegment transformedStartPosition transformedEndPosition (self.width * view.scale) color,
   DrawCall.circle transformedStartPosition radius color,
   DrawCall.circle transformedEndPosition radius color]
    ++ drawBbox configuration self.boundingBox color view transformMatrix
    ++ (if shapeNumber.isSome then
          drawShapeNumber view transformMatrix
            (.transformed ((transformedStartPosition + transformedEndPosition) / (2 : ℚ)))
            shapeNumber
        else [])

/-- `Renderable for ArcGerberPrimitive` (renderer.rs): the generated points
are mapped through the transform pipeline and stroked as a (possibly closed)
path of width `width * view.scale`; the shape number is drawn at the midpoint
of the point sequence (`points[steps / 2]` in the source, modelled with a
default for the out-of-range case — the C7 theorem shows the index is always
in range); `transform_scaling` is unused in the source. -/
def renderArc (self : ArcGerberPrimitive) (view : ViewState) (transformMatrix : Matrix3)
    (_transformScaling : Vec2) (color : Color) (shapeNumber : Option ℕ)
    (configuration : RenderConfiguration) : List DrawCall :=
  let color := self.exposure.toColor color
  let screenCenter : Vec2 := ⟨self.center.x, -self.center.y⟩
  let points := (generatePoints self).map (fun p =>
    let localPoint : Vec2 := ⟨p.x, -p.y⟩
    view.translation + transformPos2 transformMatrix (screenCenter + localPoint) * view.scale)
  let steps := points.length
  let centerPoint := points.getD (steps / 2) ⟨0, 0⟩
  [DrawCall.path points self.isFullCircle colorTransparent (self.width * view.scale) color]
    ++ drawBbox configuration self.boundingBox color view transformMatrix
    ++ drawShapeNumber view transformMatrix (.transformed centerPoint) shapeNumber

/-- `Renderable for PolygonGerberPrimitive` (renderer.rs): convex rings are
drawn directly as a convex polygon; non-convex rings are drawn from the
precomputed tessellation; a non-convex ring without a tessellation draws
nothing; optional per-vertex numbering, bounding box and shape number
follow. -/
def renderPolygon (self : PolygonGerberPrimitive) (view : ViewState)
    (transformMatrix : Matrix3) (_transformScaling : Vec2) (color : Color)
    (shapeNumber : Option ℕ) (configuration : RenderConfiguration) : List DrawCall :=
  let color := self.exposure.toColor color
  let screenCenter : Vec2 := ⟨self.center.x, -self.center.y⟩
  (if self.geometry.is_convex then
    let screenVertices := self.geometry.relative_vertices.map (fun v0 =>
      let localPoint : Vec2 := ⟨v0.x, -v0.y⟩
      view.translation + transformPos2 transformMatrix (screenCenter + localPoint) * view.scale)
    [DrawCall.convexPolygon screenVertices color]
  else
    match self.geometry.tessellation with
    | some tess =>
      let vertices := tess.vertices.map (fun v0 =>
        let localPoint : Vec2 := ⟨v0.x, -v0.y⟩
        (view.translation + transformPos2 transformMatrix (screenCenter + localPoint) * view.scale,
         color))
      [DrawCall.mesh vertices tess.indices]
    | none => [])
    ++ (if configuration.use_vertex_numbering then
          let debugVertices := self.geometry.relative_vertices.map (fun v0 =>
            let localPoint : Vec2 := ⟨v0.x, -v0.y⟩
            view.translation + transformPos2 transformMatrix (screenCenter + localPoint) * view.scale)
          debugVertices.enum.map (fun ip => DrawCall.text ip.2 ip.1 10 colorRed)
        else [])
    ++ drawBbox configuration self.boundingBox color view transformMatrix
    ++ drawShapeNumber view transformMatrix (.untransformed screenCenter) shapeNumber

/-- The exhaustive primitive dispatch of `paint_layer` (renderer.rs). -/
def renderPrimitive (primitive : GerberPrimitive) (view : ViewState)
    (transformMatrix : Matrix3) (transformScaling : Vec2) (color : Color)
    (shapeNumber : Option ℕ) (configuration : RenderConfiguration) : List DrawCall :=
  match primitive with
  | .circle c => renderCircle c view transformMatrix transformScaling color shapeNumber configuration
  | .rectangle r => renderRectangle r view transformMatrix transformScaling color shapeNumber configuration
  | .line l => renderLine l view transformMatrix transformScaling color shapeNumber configuration
  | .arc a => renderArc a view transformMatrix transformScaling color shapeNumber configuration
  | .polygon p => renderPolygon p view transformMatrix transformScaling color shapeNumber configuration

/-- The enumerated loop body of `GerberRenderer::paint_layer` (renderer.rs):
per-index color and shape-number selection, then the dispatch; draw calls of
successive primitives are emitted in order. -/
def paintLayerAux (configuration : RenderConfiguration) (view : ViewState)
    (transformMatrix : Matrix3) (transformScaling : Vec2) (baseColor : Color) :
    ℕ → List GerberPrimitive → List DrawCall
  | _, [] => []
  | index, primitive :: rest =>
    let color := if configuration.use_unique_shape_colors then generatePastelColor index
      else baseColor
    let shapeNumber := if configuration.use_shape_numbering then some index else none
    renderPrimitive primitive view transformMatrix transformScaling color shapeNumber configuration
      ++ paintLayerAux configuration view transformMatrix transformScaling baseColor (index + 1) rest

/-- `GerberRenderer::paint_layer` (renderer.rs) over a layer's primitive
sequence. -/
def paintLayer (configuration : RenderConfiguration) (view : ViewState)
    (transformMatrix : Matrix3) (transformScaling : Vec2)
    (primitives : List GerberPrimitive) (baseColor : Color) : List DrawCall :=
  paintLayerAux configuration view transformMatrix transformScaling baseColor 0 primitives

/-- Modelled from the spec: `ViewState::gerber_to_screen_coords` lives
outside src/.  §4.5 gives `translation + point * scale`, and §3 requires the
single Y negation at the shape→screen boundary. -/
def ViewState.gerberToScreenCoords (v : ViewState) (p : Vec2) : Vec2 :=
  v.translation + Vec2.negY p * v.scale

/-- Modelled from the spec: `ViewState::fit_view` lives outside src/.  §4.5:
scale so that at most the `zoom_factor` fraction of the viewport is occupied
("zoom_factor ≤ 1 leaves margin"), centered; when the target box has zero
width or height, "scale defaults to 1, centered". -/
def ViewState.fitView (viewport : Rect) (bbox : BoundingBox) (zoomFactor : ℚ) : ViewState :=
  let bw := bbox.width
  let bh := bbox.height
  let scale :=
    if bw ≤ 0 ∨ bh ≤ 0 then 1
    else zoomFactor * Min.min (viewport.width / bw) (viewport.height / bh)
  { translation := viewport.center - Vec2.negY bbox.center * scale, scale := scale }

/-- `GerberViewerInstance::fit_view` (demo/src/main.rs): compose the image
transform with the placement transform, transform the layer bounding box by
the composed matrix, and fit the view to the result. -/
def instanceFitView (layerBbox : BoundingBox) (imageTransformMatrix layerMatrix : Matrix3)
    (viewport : Rect) (zoomFactor : ℚ) : ViewState :=
  let matrix := matMul imageTransformMatrix layerMatrix
  ViewState.fitView viewport (layerBbox.applyTransformMatrix matrix) zoomFactor

/-- The matrix the demo's view fitting uses (demo/src/main.rs,
`matrix = image_transform_matrix * layer_matrix`). -/
def instanceFitViewMatrix (imageTransformMatrix layerMatrix : Matrix3) : Matrix3 :=
  matMul imageTransformMatrix layerMatrix

/-- The stroke width of the first emitted stroked call, when there is one. -/
def firstStrokeWidth? : List DrawCall → Option ℚ
  | DrawCall.lineSegment _ _ w _ :: _ => some w
  | DrawCall.path _ _ _ w _ :: _ => some w
  | _ => none

/-- The radius of a circle draw call. -/
def circleRadius? : DrawCall → Option ℚ
  | DrawCall.circle _ r _ => some r
  | _ => none

/-- Whether a draw call contributes filled geometry (as opposed to debug
strokes and text). -/
def isFillGeometry : DrawCall → Bool
  | DrawCall.circle _ _ _ => true
  | DrawCall.rect _ _ _ => true
  | DrawCall.convexPolygon _ _ => true
  | DrawCall.mesh _ _ => true
  | _ => false

/-- Erase every color of a draw call, keeping all geometry (positions, radii,
sizes, vertices, triangle indices, stroke widths, flags, text). -/
def eraseColor : DrawCall → DrawCall
  | DrawCall.circle c r _ => DrawCall.circle c r 0
  | DrawCall.lineSegment a b w _ => DrawCall.lineSegment a b w 0
  | DrawCall.rect tl sz _ => DrawCall.rect tl sz 0
  | DrawCall.convexPolygon pts _ => DrawCall.convexPolygon pts 0
  | DrawCall.path pts cl _ w _ => DrawCall.path pts cl 0 w 0
  | DrawCall.mesh vs idx => DrawCall.mesh (vs.map (fun q => (q.1, 0))) idx
  | DrawCall.text p c fs _ => DrawCall.text p c fs 0

theorem generatePoints_length (a : ArcGerberPrimitive) :
    (generatePoints a).length = numSegments a + 1 := by
  simp only [generatePoints]
  rw [List.length_map, List.length_range]

theorem minimumSegments_le_numSegments (a : ArcGerberPrimitive) :
    minimumSegments ≤ numSegments a :=
  le_max_left _ _

/-- C7: rendering degenerate geometry is total: in particular the midpoint
index `points[steps / 2]` taken by the arc render path is in bounds for every
input arc (including zero-radius and zero-sweep arcs), because the generated
point sequence is never empty — its length is the segment count plus one,
and the segment count is floored at the fixed positive minimum; the screen
point list indexed by the source is an elementwise image of this sequence and
has the same length.  All other render paths index nothing. -/
theorem C7_arc_midpoint_index_in_bounds (a : ArcGerberPrimitive) :
    generatePoints a ≠ [] ∧
    (generatePoints a).length / 2 < (generatePoints a).length := by
  have hlen : (generatePoints a).length = numSegments a + 1 := generatePoints_length a
  constructor
  · intro hempty
    rw [hempty] at hlen
    simp at hlen
  · apply Nat.div_lt_self
    · omega
    · omega

/-- C4: the renderer composes the image transform with the placement
transform as `M = image * placement` and the demo's view fitting composes the
very same product; for affine placement matrices the composed action applies
the placement first. -/
theorem C4_transform_composition_order (i p : Matrix3) :
    composedTransformMatrix i p = instanceFitViewMatrix i p ∧
    (p.isAffine → ∀ v : Vec2,
      transformPos2 (composedTransformMatrix i p) v = transformPos2 i (transformPos2 p v)) := by
  refine ⟨rfl, fun h v => ?_⟩
  obtain ⟨h20, h21, h22⟩ := h
  unfold composedTransformMatrix matMul transformPos2
  ext <;> simp [h20, h21, h22] <;> ring

theorem C4_witness :
    transformPos2 (composedTransformMatrix ⟨0, -1, 3, 1, 0, 4, 0, 0, 1⟩ ⟨1, 0, 1, 0, 1, 2, 0, 0, 1⟩) ⟨5, 7⟩
      = transformPos2 ⟨0, -1, 3, 1, 0, 4, 0, 0, 1⟩
          (transformPos2 ⟨1, 0, 1, 0, 1, 2, 0, 0, 1⟩ ⟨5, 7⟩) :=
  (C4_transform_composition_order ⟨0, -1, 3, 1, 0, 4, 0, 0, 1⟩ ⟨1, 0, 1, 0, 1, 2, 0, 0, 1⟩).2
    (by norm_num [Matrix3.isAffine]) ⟨5, 7⟩

/-- The circle primitive of the end-to-end test: center (0,0), diameter 10. -/
def circleC2 : CircleGerberPrimitive := ⟨⟨0, 0⟩, 10, .add⟩

/-- The view state of the end-to-end test: translation (0,0), scale 1. -/
def viewC2 : ViewState := ⟨⟨0, 0⟩, 1⟩

/-- C2: a circle with center (0,0) and diameter 10, rendered with the
identity composed transform (whose per-axis scale factors are 1) and a view
with translation (0,0) and scale 1, emits exactly one screen circle, at
(0,0) with radius 5. -/
theorem C2_circle_end_to_end (s : Vec2) (col : Color)
    (h : IsScalingFactors identityMatrix s) :
    renderCircle circleC2 viewC2 identityMatrix s col none defaultConfiguration
      = [DrawCall.circle ⟨0, 0⟩ 5 col] := by
  obtain ⟨hx0, hx2, -, -⟩ := h
  have hx2b : s.x ^ 2 = 1 := by
    rw [hx2]
    norm_num [identityMatrix]
  have h1 : (s.x - 1) * (s.x + 1) = 0 := by nlinarith [hx2b]
  have hx : s.x = 1 := by
    rcases mul_eq_zero.mp h1 with h2 | h2
    · linarith
    · linarith
  simp [renderCircle, drawBbox, drawShapeNumber, defaultConfiguration, transformPos2,
    identityMatrix, Exposure.toColor, circleC2, viewC2, hx]
  constructor
  · ext <;> norm_num
  · norm_num

theorem C2_witness :
    IsScalingFactors identityMatrix ⟨1, 1⟩ ∧
    renderCircle circleC2 viewC2 identityMatrix ⟨1, 1⟩ 7 none defaultConfiguration
      = [DrawCall.circle ⟨0, 0⟩ 5 7] :=
  ⟨by norm_num [IsScalingFactors, identityMatrix],
   C2_circle_end_to_end ⟨1, 1⟩ 7 (by norm_num [IsScalingFactors, identityMatrix])⟩

/-- C10: the rendered radius of a circle primitive is
`diameter * scaling.x / 2 * view.scale`; the Y-axis scale factor is never
consulted — two renders whose scale-factor vectors agree on the X component
emit identical draw calls. -/
theorem C10_circle_radius_from_x_axis_only (c : CircleGerberPrimitive) (view : ViewState)
    (m : Matrix3) (s sB : Vec2) (col : Color) (n : Option ℕ) (cfg : RenderConfiguration)
    (hx : s.x = sB.x) :
    renderCircle c view m s col n cfg = renderCircle c view m sB col n cfg ∧
    (renderCircle c view m s col n cfg).head? =
      some (DrawCall.circle (gerberToScreenCoordinates view m c.center)
        (c.diameter * s.x / 2 * view.scale) (c.exposure.toColor col)) := by
  constructor
  · unfold renderCircle
    rw [hx]
  · unfold renderCircle gerberToScreenCoordinates
    simp

theorem C10_witness :
    renderCircle ⟨⟨1, 2⟩, 4, .add⟩ ⟨⟨0, 0⟩, 1⟩ identityMatrix ⟨1, 1⟩ 7 none defaultConfiguration
      = renderCircle ⟨⟨1, 2⟩, 4, .add⟩ ⟨⟨0, 0⟩, 1⟩ identityMatrix ⟨1, 99⟩ 7 none defaultConfiguration :=
  (C10_circle_radius_from_x_axis_only ⟨⟨1, 2⟩, 4, .add⟩ ⟨⟨0, 0⟩, 1⟩ identityMatrix
    ⟨1, 1⟩ ⟨1, 99⟩ 7 none defaultConfiguration rfl).1

theorem drawBbox_no_circle (cfg : RenderConfiguration) (bbox : BoundingBox) (col : Color)
    (view : ViewState) (m : Matrix3) :
    (drawBbox cfg bbox col view m).filterMap circleRadius? = [] := by
  unfold drawBbox
  cases h : cfg.use_shape_bboxes <;> simp [h, circleRadius?]

theorem drawShapeNumber_no_circle (view : ViewState) (m : Matrix3)
    (pos : ShapeNumberPosition) (n : Option ℕ) :
    (drawShapeNumber view m pos n).filterMap circleRadius? = [] := by
  unfold drawShapeNumber
  cases n <;> simp [circleRadius?]

/-- The line primitive of the C1 counterexample: width 2 from (0,0) to (1,0). -/
def lineC1 : LineGerberPrimitive := ⟨⟨0, 0⟩, ⟨1, 0⟩, 2, .add⟩

/-- A uniform scale-by-2 transform matrix; its per-axis scale factors are
(2, 2). -/
def scaleTwoMatrix : Matrix3 := ⟨2, 0, 0, 0, 2, 0, 0, 0, 1⟩

/-- C1 counterexample: under a scale-by-2 composed matrix (per-axis scale
factors (2, 2)) and view scale 1, the line render path emits a stroke width
of 2 — the primitive's width times the view scale only — whereas the claim
asserts width × scaling.x × view scale = 4. -/
theorem C1_counterexample :
    IsScalingFactors scaleTwoMatrix ⟨2, 2⟩ ∧
    firstStrokeWidth? (renderLine lineC1 viewC2 scaleTwoMatrix ⟨2, 2⟩ 7 none defaultConfiguration)
      = some 2 ∧
    lineC1.width * (Vec2.mk 2 2).x * viewC2.scale = 4 ∧ (2 : ℚ) ≠ 4 := by
  refine ⟨by norm_num [IsScalingFactors, scaleTwoMatrix], ?_, by norm_num [lineC1, viewC2], by norm_num⟩
  simp [renderLine, firstStrokeWidth?, lineC1, viewC2]

/-- C1 amended: the stroke width of line and arc draw calls is the
primitive's width times the view scale only, and the line end-cap radius is
width/2 times the view scale; the per-axis scale factors of the composed
matrix are not consulted by the line and arc render paths (their outputs do
not depend on the scale-factor argument at all). -/
theorem C1_line_arc_widths_view_scale_only (l : LineGerberPrimitive) (a : ArcGerberPrimitive)
    (view : ViewState) (m : Matrix3) (s sB : Vec2) (col : Color) (n : Option ℕ)
    (cfg : RenderConfiguration) :
    renderLine l view m s col n cfg = renderLine l view m sB col n cfg ∧
    renderArc a view m s col n cfg = renderArc a view m sB col n cfg ∧
    firstStrokeWidth? (renderLine l view m s col n cfg) = some (l.width * view.scale) ∧
    firstStrokeWidth? (renderArc a view m s col n cfg) = some (a.width * view.scale) ∧
    (renderLine l view m s col n cfg).filterMap circleRadius?
      = [l.width / 2 * view.scale, l.width / 2 * view.scale] := by
  refine ⟨rfl, rfl, ?_, ?_, ?_⟩
  · simp [renderLine, firstStrokeWidth?]
  · simp [renderArc, firstStrokeWidth?]
  · simp only [renderLine, List.filterMap_append]
    rw [drawBbox_no_circle]
    cases n <;> simp [drawShapeNumber, circleRadius?]

/-- The pre-transform screen-space center of a rectangle primitive:
origin plus half the extent, with the Y flip. -/
def rectScreenCenter (r : RectangleGerberPrimitive) : Vec2 :=
  ⟨r.origin.x + r.width / 2, -(r.origin.y + r.height / 2)⟩

/-- The transformed screen-space center of a rectangle primitive. -/
def rectScreenCenterTransformed (r : RectangleGerberPrimitive) (view : ViewState)
    (m : Matrix3) : Vec2 :=
  view.translation + transformPos2 m (rectScreenCenter r) * view.scale

/-- C3: when the composed matrix passes the axis-alignment test the
rectangle render path emits an axis-aligned screen rectangle; when it also
passes the 90°/270° test the width and height are swapped before the
per-axis scale factors are applied; when the matrix is not axis-aligned the
rectangle is emitted as a four-corner polygon of individually transformed
corners. -/
theorem C3_rectangle_render_paths (r : RectangleGerberPrimitive) (view : ViewState)
    (m : Matrix3) (s : Vec2) (col : Color) (n : Option ℕ) (cfg : RenderConfiguration) :
    (m.isAxisAligned → ¬ m.is90or270Rotation →
      (renderRectangle r view m s col n cfg).head? = some (DrawCall.rect
        (rectScreenCenterTransformed r view m
          - (⟨r.width * s.x, r.height * s.y⟩ : Vec2) * view.scale / (2 : ℚ))
        ((⟨r.width * s.x, r.height * s.y⟩ : Vec2) * view.scale)
        (r.exposure.toColor col))) ∧
    (m.isAxisAligned → m.is90or270Rotation →
      (renderRectangle r view m s col n cfg).head? = some (DrawCall.rect
        (rectScreenCenterTransformed r view m
          - (⟨r.height * s.x, r.width * s.y⟩ : Vec2) * view.scale / (2 : ℚ))
        ((⟨r.height * s.x, r.width * s.y⟩ : Vec2) * view.scale)
        (r.exposure.toColor col))) ∧
    (¬ m.isAxisAligned →
      (renderRectangle r view m s col n cfg).head? = some (DrawCall.convexPolygon
        (([⟨-(r.width / 2), -(r.height / 2)⟩, ⟨r.width / 2, -(r.height / 2)⟩,
           ⟨r.width / 2, r.height / 2⟩, ⟨-(r.width / 2), r.height / 2⟩] : List Vec2).map
          (fun corner => view.translation
            + transformPos2 m (rectScreenCenter r + corner) * view.scale))
        (r.exposure.toColor col))) := by
  refine ⟨fun h1 h2 => ?_, fun h1 h2 => ?_, fun h1 => ?_⟩
  · simp [renderRectangle, rectScreenCenterTransformed, rectScreenCenter, h1, h2]
  · simp [renderRectangle, rectScreenCenterTransformed, rectScreenCenter, h1, h2]
  · simp [renderRectangle, rectScreenCenter, h1]

/-- A rotation by 90°: the diagonal vanishes and the off-diagonal entries
are ±1. -/
def rot90Matrix : Matrix3 := ⟨0, -1, 0, 1, 0, 0, 0, 0, 1⟩

/-- A shear, which is not axis-aligned. -/
def shearMatrix : Matrix3 := ⟨1, 1, 0, 0, 1, 0, 0, 0, 1⟩

/-- The rectangle primitive used in the C3 witness: 3 wide, 5 tall. -/
def rectC3 : RectangleGerberPrimitive := ⟨⟨0, 0⟩, 3, 5, .add⟩

theorem C3_witness :
    ((renderRectangle rectC3 viewC2 identityMatrix ⟨1, 1⟩ 7 none defaultConfiguration).head?
      = some (DrawCall.rect
        (rectScreenCenterTransformed rectC3 viewC2 identityMatrix
          - (⟨rectC3.width * 1, rectC3.height * 1⟩ : Vec2) * viewC2.scale / (2 : ℚ))
        ((⟨rectC3.width * 1, rectC3.height * 1⟩ : Vec2) * viewC2.scale)
        (rectC3.exposure.toColor 7))) ∧
    ((renderRectangle rectC3 viewC2 rot90Matrix ⟨1, 1⟩ 7 none defaultConfiguration).head?
      = some (DrawCall.rect
        (rectScreenCenterTransformed rectC3 viewC2 rot90Matrix
          - (⟨rectC3.height * 1, rectC3.width * 1⟩ : Vec2) * viewC2.scale / (2 : ℚ))
        ((⟨rectC3.height * 1, rectC3.width * 1⟩ : Vec2) * viewC2.scale)
        (rectC3.exposure.toColor 7))) ∧
    ((renderRectangle rectC3 viewC2 shearMatrix ⟨1, 1⟩ 7 none defaultConfiguration).head?
      = some (DrawCall.convexPolygon
        (([⟨-(rectC3.width / 2), -(rectC3.height / 2)⟩, ⟨rectC3.width / 2, -(rectC3.height / 2)⟩,
           ⟨rectC3.width / 2, rectC3.height / 2⟩, ⟨-(rectC3.width / 2), rectC3.height / 2⟩] : List Vec2).map
          (fun corner => viewC2.translation
            + transformPos2 shearMatrix (rectScreenCenter rectC3 + corner) * viewC2.scale))
        (rectC3.exposure.toColor 7))) :=
  ⟨(C3_rectangle_render_paths rectC3 viewC2 identityMatrix ⟨1, 1⟩ 7 none defaultConfiguration).1
      (by norm_num [Matrix3.isAxisAligned, identityMatrix, eps])
      (by norm_num [Matrix3.is90or270Rotation, identityMatrix, eps]),
   (C3_rectangle_render_paths rectC3 viewC2 rot90Matrix ⟨1, 1⟩ 7 none defaultConfiguration).2.1
      (by norm_num [Matrix3.isAxisAligned, rot90Matrix, eps])
      (by norm_num [Matrix3.is90or270Rotation, rot90Matrix, eps]),
   (C3_rectangle_render_paths rectC3 viewC2 shearMatrix ⟨1, 1⟩ 7 none defaultConfiguration).2.2
      (by norm_num [Matrix3.isAxisAligned, shearMatrix, eps])⟩

@[simp] theorem Vec2.mk_x (a b : ℚ) : (Vec2.mk a b).x = a := rfl

@[simp] theorem Vec2.mk_y (a b : ℚ) : (Vec2.mk a b).y = b := rfl

theorem screen_negY_add (view : ViewState) (m : Matrix3) (cpt q : Vec2) :
    view.translation + transformPos2 m ((⟨cpt.x, -cpt.y⟩ : Vec2) + ⟨q.x, -q.y⟩) * view.scale
      = gerberToScreenCoordinates view m (cpt + q) := by
  unfold gerberToScreenCoordinates transformPos2
  ext <;>
    simp only [Vec2.add_x, Vec2.add_y, Vec2.mul_x, Vec2.mul_y, Vec2.mk_x, Vec2.mk_y] <;>
    ring

theorem map_screen_eq (view : ViewState) (m : Matrix3) (cpt : Vec2) (l : List Vec2) :
    l.map (fun v0 =>
        view.translation + transformPos2 m ((⟨cpt.x, -cpt.y⟩ : Vec2) + ⟨v0.x, -v0.y⟩) * view.scale)
      = l.map (fun q => gerberToScreenCoordinates view m (cpt + q)) := by
  apply List.map_congr_left
  intro q _
  exact screen_negY_add view m cpt q

theorem map_screen_pair_eq (view : ViewState) (m : Matrix3) (cpt : Vec2) (col2 : Color)
    (l : List Vec2) :
    l.map (fun v0 =>
        (view.translation + transformPos2 m ((⟨cpt.x, -cpt.y⟩ : Vec2) + ⟨v0.x, -v0.y⟩) * view.scale,
         col2))
      = l.map (fun q => (gerberToScreenCoordinates view m (cpt + q), col2)) := by
  apply List.map_congr_left
  intro q _
  rw [screen_negY_add]

theorem screen_negY_corner (view : ViewState) (m : Matrix3) (cpt corner : Vec2) :
    view.translation + transformPos2 m ((⟨cpt.x, -cpt.y⟩ : Vec2) + corner) * view.scale
      = gerberToScreenCoordinates view m (cpt + Vec2.negY corner) := by
  unfold gerberToScreenCoordinates transformPos2 Vec2.negY
  ext <;>
    simp only [Vec2.add_x, Vec2.add_y, Vec2.mul_x, Vec2.mul_y, Vec2.mk_x, Vec2.mk_y] <;>
    ring

theorem rect_center_screen (view : ViewState) (m : Matrix3) (r : RectangleGerberPrimitive) :
    view.translation + transformPos2 m
        ((⟨r.origin.x + r.width / 2, -(r.origin.y + r.height / 2)⟩ : Vec2)) * view.scale
      = gerberToScreenCoordinates view m (r.origin + ⟨r.width / 2, r.height / 2⟩) := by
  unfold gerberToScreenCoordinates transformPos2
  ext <;>
    simp only [Vec2.add_x, Vec2.add_y, Vec2.mul_x, Vec2.mul_y, Vec2.mk_x, Vec2.mk_y]

theorem rect_corner_screen (view : ViewState) (m : Matrix3) (r : RectangleGerberPrimitive)
    (corner : Vec2) :
    view.translation + transformPos2 m
        ((⟨r.origin.x + r.width / 2, -(r.origin.y + r.height / 2)⟩ : Vec2) + corner) * view.scale
      = gerberToScreenCoordinates view m
          (r.origin + ⟨r.width / 2, r.height / 2⟩ + Vec2.negY corner) := by
  unfold gerberToScreenCoordinates transformPos2 Vec2.negY
  ext <;>
    simp only [Vec2.add_x, Vec2.add_y, Vec2.mul_x, Vec2.mul_y, Vec2.mk_x, Vec2.mk_y] <;>
    ring

theorem rect_corner_map_eq (view : ViewState) (m : Matrix3) (r : RectangleGerberPrimitive)
    (cl : List Vec2) :
    cl.map (fun corner => view.translation + transformPos2 m
        ((⟨r.origin.x + r.width / 2, -(r.origin.y + r.height / 2)⟩ : Vec2) + corner) * view.scale)
      = cl.map (fun corner => gerberToScreenCoordinates view m
          (r.origin + ⟨r.width / 2, r.height / 2⟩ + Vec2.negY corner)) := by
  apply List.map_congr_left
  intro q _
  exact rect_corner_screen view m r q

theorem bbox_corner_map_eq (view : ViewState) (m : Matrix3) (bbox : BoundingBox)
    (cl : List Vec2) :
    cl.map (fun corner => view.translation + transformPos2 m
        ((⟨bbox.center.x, -bbox.center.y⟩ : Vec2) + corner) * view.scale)
      = cl.map (fun corner => gerberToScreenCoordinates view m
          (bbox.center + Vec2.negY corner)) := by
  apply List.map_congr_left
  intro q _
  exact screen_negY_corner view m bbox.center q

/-- The position and content of a per-vertex numbering text call (small red
monospace text in the source); other draw calls yield nothing. -/
def vertexNumberText? : DrawCall → Option (Vec2 × ℕ)
  | DrawCall.text pos content _ c => if c = colorRed then some (pos, content) else none
  | _ => none

theorem drawBbox_no_vertexText (cfg : RenderConfiguration) (bbox : BoundingBox) (col : Color)
    (view : ViewState) (m : Matrix3) :
    (drawBbox cfg bbox col view m).filterMap vertexNumberText? = [] := by
  unfold drawBbox
  cases h : cfg.use_shape_bboxes <;> simp [h, vertexNumberText?]

theorem drawShapeNumber_no_vertexText (view : ViewState) (m : Matrix3)
    (pos : ShapeNumberPosition) (n : Option ℕ) :
    (drawShapeNumber view m pos n).filterMap vertexNumberText? = [] := by
  unfold drawShapeNumber
  cases n <;> simp [vertexNumberText?, colorGreen, colorRed]

theorem filterMap_some_fn {α β : Type} (f : α → β) (l : List α) :
    l.filterMap (fun x => some (f x)) = l.map f := by
  induction l with
  | nil => rfl
  | cons hd tl ih => simp [List.filterMap_cons, ih]

theorem filterMap_comp_vertexText (l : List (ℕ × Vec2)) :
    l.filterMap (vertexNumberText? ∘ fun ip => DrawCall.text ip.2 ip.1 10 colorRed)
      = l.map (fun ip => (ip.2, ip.1)) := by
  induction l with
  | nil => rfl
  | cons hd tl ih => simp [List.filterMap_cons, vertexNumberText?, Function.comp, ih]

/-- C5: every render path converts a shape-space point to the screen by
negating Y exactly once and then applying the composed matrix, the view
scale and the view translation — i.e. every emitted position equals
`gerber_to_screen_coordinates` of the corresponding absolute shape-space
point, for every configuration and shape number: the circle, line, arc,
rectangle (fast path and four-corner fallback) and polygon (convex and
tessellated) paths, as well as the untransformed shape-number, bounding-box
and per-vertex-number overlay conversions (for composite points the separate
negations of center and relative point compose to a single negation of
their sum; screen-space corner offsets enter with their Y flipped back,
again a single net negation). -/
theorem C5_y_negated_exactly_once (view : ViewState) (m : Matrix3) (s : Vec2) (col : Color)
    (a : ArcGerberPrimitive) (l : LineGerberPrimitive) (c : CircleGerberPrimitive)
    (r : RectangleGerberPrimitive) (poly : PolygonGerberPrimitive) (t : PolygonTessellation)
    (p : Vec2) (n : Option ℕ) (k : ℕ) (cfg : RenderConfiguration) (bbox : BoundingBox)
    (col2 : Color) :
    gerberToScreenCoordinates view m p
      = view.translation + transformPos2 m (Vec2.negY p) * view.scale ∧
    (renderCircle c view m s col n cfg).head?
      = some (DrawCall.circle (gerberToScreenCoordinates view m c.center)
          (c.diameter * s.x / 2 * view.scale) (c.exposure.toColor col)) ∧
    (renderLine l view m s col n cfg).take 3
      = [DrawCall.lineSegment (gerberToScreenCoordinates view m l.start)
          (gerberToScreenCoordinates view m l.end_) (l.width * view.scale) (l.exposure.toColor col),
         DrawCall.circle (gerberToScreenCoordinates view m l.start)
          (l.width / 2 * view.scale) (l.exposure.toColor col),
         DrawCall.circle (gerberToScreenCoordinates view m l.end_)
          (l.width / 2 * view.scale) (l.exposure.toColor col)] ∧
    (renderArc a view m s col n cfg).head?
      = some (DrawCall.path ((generatePoints a).map (fun q =>
          gerberToScreenCoordinates view m (a.center + q))) a.isFullCircle colorTransparent
          (a.width * view.scale) (a.exposure.toColor col)) ∧
    rectScreenCenterTransformed r view m
      = gerberToScreenCoordinates view m (r.origin + ⟨r.width / 2, r.height / 2⟩) ∧
    (m.isAxisAligned →
      (renderRectangle r view m s col n cfg).head? = some (DrawCall.rect
        (gerberToScreenCoordinates view m (r.origin + ⟨r.width / 2, r.height / 2⟩)
          - (if m.is90or270Rotation then (⟨r.height * s.x, r.width * s.y⟩ : Vec2)
             else ⟨r.width * s.x, r.height * s.y⟩) * view.scale / (2 : ℚ))
        ((if m.is90or270Rotation then (⟨r.height * s.x, r.width * s.y⟩ : Vec2)
          else ⟨r.width * s.x, r.height * s.y⟩) * view.scale)
        (r.exposure.toColor col))) ∧
    (¬ m.isAxisAligned →
      (renderRectangle r view m s col n cfg).head? = some (DrawCall.convexPolygon
        (([⟨-(r.width / 2), -(r.height / 2)⟩, ⟨r.width / 2, -(r.height / 2)⟩,
           ⟨r.width / 2, r.height / 2⟩, ⟨-(r.width / 2), r.height / 2⟩] : List Vec2).map
          (fun corner => gerberToScreenCoordinates view m
            (r.origin + ⟨r.width / 2, r.height / 2⟩ + Vec2.negY corner)))
        (r.exposure.toColor col))) ∧
    (poly.geometry.is_convex = true →
      (renderPolygon poly view m s col n cfg).head?
        = some (DrawCall.convexPolygon (poly.geometry.relative_vertices.map (fun q =>
            gerberToScreenCoordinates view m (poly.center + q))) (poly.exposure.toColor col))) ∧
    (poly.geometry.is_convex = false → poly.geometry.tessellation = some t →
      (renderPolygon poly view m s col n cfg).head?
        = some (DrawCall.mesh (t.vertices.map (fun q =>
            (gerberToScreenCoordinates view m (poly.center + q), poly.exposure.toColor col)))
            t.indices)) ∧
    drawShapeNumber view m (.untransformed ⟨p.x, -p.y⟩) (some k)
      = [DrawCall.text (gerberToScreenCoordinates view m p) k 16 colorGreen] ∧
    (cfg.use_shape_bboxes = true →
      drawBbox cfg bbox col2 view m
        = [DrawCall.path
            (([⟨-(bbox.width / 2), -(bbox.height / 2)⟩, ⟨bbox.width / 2, -(bbox.height / 2)⟩,
               ⟨bbox.width / 2, bbox.height / 2⟩, ⟨-(bbox.width / 2), bbox.height / 2⟩] :
              List Vec2).map
              (fun corner => gerberToScreenCoordinates view m (bbox.center + Vec2.negY corner)))
            true colorTransparent 1 col2]) ∧
    (cfg.use_vertex_numbering = true →
      (renderPolygon poly view m s col n cfg).filterMap vertexNumberText?
        = (poly.geometry.relative_vertices.map (fun q =>
            gerberToScreenCoordinates view m (poly.center + q))).enum.map
            (fun ip => (ip.2, ip.1))) := by
  refine ⟨rfl, ?_, ?_, ?_, ?_, fun h1 => ?_, fun h1 => ?_, fun hconv => ?_,
    fun hconv htess => ?_, rfl, fun hbb => ?_, fun hv => ?_⟩
  · unfold renderCircle gerberToScreenCoordinates
    simp
  · rfl
  · simp only [renderArc]
    rw [map_screen_eq]
    rfl
  · exact rect_center_screen view m r
  · by_cases h2 : m.is90or270Rotation <;>
      simp [renderRectangle, h1, h2, gerberToScreenCoordinates]
  · simp only [renderRectangle]
    rw [if_neg h1, rect_corner_map_eq]
    rfl
  · simp only [renderPolygon, hconv, if_true]
    rw [map_screen_eq]
    rfl
  · simp only [renderPolygon, hconv, Bool.false_eq_true, if_false, htess]
    rw [map_screen_pair_eq]
    rfl
  · simp only [drawBbox, hbb, if_true]
    rw [bbox_corner_map_eq]
  · obtain ⟨pc, pe, ⟨verts, conv, tess⟩⟩ := poly
    simp only [renderPolygon, List.filterMap_append, hv, if_true]
    rw [drawBbox_no_vertexText, drawShapeNumber_no_vertexText, map_screen_eq]
    cases conv <;> cases tess <;>
      simp [vertexNumberText?, List.filterMap_map, filterMap_some_fn, Function.comp] <;>
      exact filterMap_comp_vertexText _

/-- A convex triangle polygon used in the C5 witness. -/
def polyConvexC5 : PolygonGerberPrimitive :=
  ⟨⟨1, 1⟩, .add, ⟨[⟨0, 0⟩, ⟨2, 0⟩, ⟨0, 2⟩], true, none⟩⟩

/-- A tessellation used in the C5 witness. -/
def tessC5 : PolygonTessellation := ⟨[⟨0, 0⟩, ⟨2, 0⟩, ⟨0, 2⟩, ⟨1, 1⟩], [0, 1, 3, 1, 2, 3]⟩

/-- A non-convex polygon carrying a tessellation, used in the C5 witness. -/
def polyTessC5 : PolygonGerberPrimitive :=
  ⟨⟨1, 1⟩, .add, ⟨[⟨0, 0⟩, ⟨2, 0⟩, ⟨1, 1⟩, ⟨0, 2⟩], false, some tessC5⟩⟩

/-- A configuration with both debug overlays (vertex numbering and shape
bounding boxes) enabled, used in the C5 witness. -/
def cfgOverlay : RenderConfiguration := ⟨false, false, true, true⟩

/-- The bounding box used in the C5 witness overlay instance. -/
def boxC5 : BoundingBox := ⟨⟨0, 0⟩, ⟨2, 4⟩⟩

theorem C5_witness :
    ((renderRectangle rectC3 viewC2 identityMatrix ⟨1, 1⟩ 7 none cfgOverlay).head?
      = some (DrawCall.rect
        (gerberToScreenCoordinates viewC2 identityMatrix
            (rectC3.origin + ⟨rectC3.width / 2, rectC3.height / 2⟩)
          - (if identityMatrix.is90or270Rotation
             then (⟨rectC3.height * (1 : ℚ), rectC3.width * (1 : ℚ)⟩ : Vec2)
             else ⟨rectC3.width * (1 : ℚ), rectC3.height * (1 : ℚ)⟩) * viewC2.scale / (2 : ℚ))
        ((if identityMatrix.is90or270Rotation
          then (⟨rectC3.height * (1 : ℚ), rectC3.width * (1 : ℚ)⟩ : Vec2)
          else ⟨rectC3.width * (1 : ℚ), rectC3.height * (1 : ℚ)⟩) * viewC2.scale)
        (rectC3.exposure.toColor 7))) ∧
    ((renderRectangle rectC3 viewC2 shearMatrix ⟨1, 1⟩ 7 none cfgOverlay).head?
      = some (DrawCall.convexPolygon
        (([⟨-(rectC3.width / 2), -(rectC3.height / 2)⟩, ⟨rectC3.width / 2, -(rectC3.height / 2)⟩,
           ⟨rectC3.width / 2, rectC3.height / 2⟩, ⟨-(rectC3.width / 2), rectC3.height / 2⟩] :
          List Vec2).map
          (fun corner => gerberToScreenCoordinates viewC2 shearMatrix
            (rectC3.origin + ⟨rectC3.width / 2, rectC3.height / 2⟩ + Vec2.negY corner)))
        (rectC3.exposure.toColor 7))) ∧
    ((renderPolygon polyConvexC5 viewC2 identityMatrix ⟨1, 1⟩ 7 none cfgOverlay).head?
      = some (DrawCall.convexPolygon (polyConvexC5.geometry.relative_vertices.map (fun q =>
          gerberToScreenCoordinates viewC2 identityMatrix (polyConvexC5.center + q)))
          (polyConvexC5.exposure.toColor 7))) ∧
    ((renderPolygon polyTessC5 viewC2 identityMatrix ⟨1, 1⟩ 7 none cfgOverlay).head?
      = some (DrawCall.mesh (tessC5.vertices.map (fun q =>
          (gerberToScreenCoordinates viewC2 identityMatrix (polyTessC5.center + q),
           polyTessC5.exposure.toColor 7))) tessC5.indices)) ∧
    (drawBbox cfgOverlay boxC5 9 viewC2 identityMatrix
      = [DrawCall.path
          (([⟨-(boxC5.width / 2), -(boxC5.height / 2)⟩, ⟨boxC5.width / 2, -(boxC5.height / 2)⟩,
             ⟨boxC5.width / 2, boxC5.height / 2⟩, ⟨-(boxC5.width / 2), boxC5.height / 2⟩] :
            List Vec2).map
            (fun corner => gerberToScreenCoordinates viewC2 identityMatrix
              (boxC5.center + Vec2.negY corner)))
          true colorTransparent 1 9]) ∧
    ((renderPolygon polyConvexC5 viewC2 identityMatrix ⟨1, 1⟩ 7 none
        cfgOverlay).filterMap vertexNumberText?
      = (polyConvexC5.geometry.relative_vertices.map (fun q =>
          gerberToScreenCoordinates viewC2 identityMatrix (polyConvexC5.center + q))).enum.map
          (fun ip => (ip.2, ip.1))) := by
  obtain ⟨-, -, -, -, -, hfastI, -, hconvI, -, -, hbbI, hvI⟩ :=
    C5_y_negated_exactly_once viewC2 identityMatrix ⟨1, 1⟩ 7
      ⟨⟨0, 0⟩, 1, 0, 0, .counterclockwise, 1, .add⟩ lineC1 circleC2 rectC3 polyConvexC5 tessC5
      ⟨0, 0⟩ none 0 cfgOverlay boxC5 9
  obtain ⟨-, -, -, -, -, -, hfallS, -, -, -, -, -⟩ :=
    C5_y_negated_exactly_once viewC2 shearMatrix ⟨1, 1⟩ 7
      ⟨⟨0, 0⟩, 1, 0, 0, .counterclockwise, 1, .add⟩ lineC1 circleC2 rectC3 polyConvexC5 tessC5
      ⟨0, 0⟩ none 0 cfgOverlay boxC5 9
  obtain ⟨-, -, -, -, -, -, -, -, htessI, -, -, -⟩ :=
    C5_y_negated_exactly_once viewC2 identityMatrix ⟨1, 1⟩ 7
      ⟨⟨0, 0⟩, 1, 0, 0, .counterclockwise, 1, .add⟩ lineC1 circleC2 rectC3 polyTessC5 tessC5
      ⟨0, 0⟩ none 0 cfgOverlay boxC5 9
  exact ⟨hfastI (by norm_num [Matrix3.isAxisAligned, identityMatrix, eps]),
    hfallS (by norm_num [Matrix3.isAxisAligned, shearMatrix, eps]),
    hconvI rfl, htessI rfl rfl, hbbI rfl, hvI rfl⟩

theorem drawBbox_no_fill (cfg : RenderConfiguration) (bbox : BoundingBox) (col : Color)
    (view : ViewState) (m : Matrix3) :
    (drawBbox cfg bbox col view m).filter isFillGeometry = [] := by
  unfold drawBbox
  cases h : cfg.use_shape_bboxes <;> simp [h, isFillGeometry]

theorem drawShapeNumber_no_fill (view : ViewState) (m : Matrix3)
    (pos : ShapeNumberPosition) (n : Option ℕ) :
    (drawShapeNumber view m pos n).filter isFillGeometry = [] := by
  unfold drawShapeNumber
  cases n <;> simp [isFillGeometry]

theorem paintLayerAux_append (cfg : RenderConfiguration) (view : ViewState) (m : Matrix3)
    (s : Vec2) (base : Color) (i : ℕ) (xs ys : List GerberPrimitive) :
    paintLayerAux cfg view m s base i (xs ++ ys)
      = paintLayerAux cfg view m s base i xs
        ++ paintLayerAux cfg view m s base (i + xs.length) ys := by
  induction xs generalizing i with
  | nil => simp [paintLayerAux]
  | cons hd tl ih =>
    simp only [List.cons_append, paintLayerAux, List.length_cons, List.append_assoc,
      List.append_eq]
    rw [ih]
    have h2 : i + 1 + tl.length = i + (tl.length + 1) := by omega
    rw [h2]

theorem paintLayerAux_default_index_irrelevant (view : ViewState) (m : Matrix3) (s : Vec2)
    (base : Color) (i j : ℕ) (prims : List GerberPrimitive) :
    paintLayerAux defaultConfiguration view m s base i prims
      = paintLayerAux defaultConfiguration view m s base j prims := by
  induction prims generalizing i j with
  | nil => rfl
  | cons hd tl ih =>
    simp only [paintLayerAux,
      show defaultConfiguration.use_unique_shape_colors = false from rfl,
      show defaultConfiguration.use_shape_numbering = false from rfl,
      Bool.false_eq_true, if_false]
    rw [ih (i + 1) (j + 1)]

theorem renderPolygon_no_tessellation_default (poly : PolygonGerberPrimitive)
    (view : ViewState) (m : Matrix3) (s : Vec2) (col : Color)
    (hconv : poly.geometry.is_convex = false) (htess : poly.geometry.tessellation = none) :
    renderPolygon poly view m s col none defaultConfiguration = [] := by
  simp [renderPolygon, hconv, htess, drawBbox, drawShapeNumber, defaultConfiguration]

/-- C6: a polygon classified as non-convex whose tessellation is absent
contributes no fill geometry (under any configuration, only debug text and
overlays can appear, and under the default configuration nothing at all),
and painting a layer containing such a polygon produces exactly the draw
calls of the remaining primitives — no error propagates and the rest of
the layer is still rendered. -/
theorem C6_failed_tessellation_skipped (poly : PolygonGerberPrimitive) (view : ViewState)
    (m : Matrix3) (s : Vec2) (col : Color) (n : Option ℕ) (cfg : RenderConfiguration)
    (xs ys : List GerberPrimitive) (base : Color)
    (hconv : poly.geometry.is_convex = false) (htess : poly.geometry.tessellation = none) :
    (renderPolygon poly view m s col n cfg).filter isFillGeometry = [] ∧
    paintLayer defaultConfiguration view m s (xs ++ GerberPrimitive.polygon poly :: ys) base
      = paintLayer defaultConfiguration view m s xs base
        ++ paintLayer defaultConfiguration view m s ys base := by
  constructor
  · simp only [renderPolygon, hconv, Bool.false_eq_true, if_false, htess, List.nil_append,
      List.filter_append]
    rw [drawBbox_no_fill, drawShapeNumber_no_fill]
    cases h : cfg.use_vertex_numbering <;> simp [isFillGeometry, List.filter_map]
  · unfold paintLayer
    rw [paintLayerAux_append]
    simp only [paintLayerAux,
      show defaultConfiguration.use_unique_shape_colors = false from rfl,
      show defaultConfiguration.use_shape_numbering = false from rfl,
      Bool.false_eq_true, if_false, renderPrimitive]
    rw [renderPolygon_no_tessellation_default poly view m s base hconv htess]
    rw [paintLayerAux_default_index_irrelevant view m s base (0 + xs.length + 1) 0]
    rfl

/-- The non-convex polygon without a tessellation used in the C6 witness. -/
def polyBadC6 : PolygonGerberPrimitive :=
  ⟨⟨0, 0⟩, .add, ⟨[⟨0, 0⟩, ⟨2, 0⟩, ⟨1, 1⟩, ⟨0, 2⟩], false, none⟩⟩

theorem C6_witness :
    (renderPolygon polyBadC6 viewC2 identityMatrix ⟨1, 1⟩ 7 none
      defaultConfiguration).filter isFillGeometry = [] ∧
    paintLayer defaultConfiguration viewC2 identityMatrix ⟨1, 1⟩
        ([GerberPrimitive.circle circleC2] ++ GerberPrimitive.polygon polyBadC6
          :: [GerberPrimitive.line lineC1]) 7
      = paintLayer defaultConfiguration viewC2 identityMatrix ⟨1, 1⟩
          [GerberPrimitive.circle circleC2] 7
        ++ paintLayer defaultConfiguration viewC2 identityMatrix ⟨1, 1⟩
            [GerberPrimitive.line lineC1] 7 :=
  C6_failed_tessellation_skipped polyBadC6 viewC2 identityMatrix ⟨1, 1⟩ 7 none
    defaultConfiguration [GerberPrimitive.circle circleC2] [GerberPrimitive.line lineC1] 7
    rfl rfl

theorem fitView_eval (viewport : Rect) (b : BoundingBox) (z : ℚ)
    (hw : 0 < b.width) (hh : 0 < b.height) :
    ViewState.fitView viewport b z
      = { translation := viewport.center - Vec2.negY b.center
            * (z * Min.min (viewport.width / b.width) (viewport.height / b.height)),
          scale := z * Min.min (viewport.width / b.width) (viewport.height / b.height) } := by
  have hcond : ¬ (b.width ≤ 0 ∨ b.height ≤ 0) := by
    push_neg
    exact ⟨hw, hh⟩
  simp only [ViewState.fitView]
  rw [if_neg hcond]

/-- C8: the demo's view fitting — transform the layer box by the composed
matrix, then fit — yields a view state under which the transformed box's
center maps to the viewport center, and the box occupies at most the
`zoom_factor` fraction of the viewport in each dimension. -/
theorem C8_fit_view_centers_and_bounds (layerBbox : BoundingBox)
    (imageM layerM : Matrix3) (viewport : Rect) (zoomFactor : ℚ)
    (hw : 0 < (layerBbox.applyTransformMatrix (matMul imageM layerM)).width)
    (hh : 0 < (layerBbox.applyTransformMatrix (matMul imageM layerM)).height)
    (hz : 0 ≤ zoomFactor) :
    (instanceFitView layerBbox imageM layerM viewport zoomFactor).gerberToScreenCoords
        (layerBbox.applyTransformMatrix (matMul imageM layerM)).center = viewport.center ∧
    (layerBbox.applyTransformMatrix (matMul imageM layerM)).width
        * (instanceFitView layerBbox imageM layerM viewport zoomFactor).scale
      ≤ zoomFactor * viewport.width ∧
    (layerBbox.applyTransformMatrix (matMul imageM layerM)).height
        * (instanceFitView layerBbox imageM layerM viewport zoomFactor).scale
      ≤ zoomFactor * viewport.height := by
  have hfit : instanceFitView layerBbox imageM layerM viewport zoomFactor
      = ViewState.fitView viewport (layerBbox.applyTransformMatrix (matMul imageM layerM))
          zoomFactor := rfl
  rw [hfit, fitView_eval _ _ _ hw hh]
  generalize hb : layerBbox.applyTransformMatrix (matMul imageM layerM) = b at hw hh ⊢
  have hw0 : b.width ≠ 0 := ne_of_gt hw
  have hh0 : b.height ≠ 0 := ne_of_gt hh
  refine ⟨?_, ?_, ?_⟩
  · unfold ViewState.gerberToScreenCoords
    ext <;> simp [Vec2.negY]
  · have h1 : Min.min (viewport.width / b.width) (viewport.height / b.height)
        ≤ viewport.width / b.width := min_le_left _ _
    have h2 : zoomFactor * Min.min (viewport.width / b.width) (viewport.height / b.height)
        ≤ zoomFactor * (viewport.width / b.width) := mul_le_mul_of_nonneg_left h1 hz
    have h3 : b.width * (zoomFactor * Min.min (viewport.width / b.width)
          (viewport.height / b.height))
        ≤ b.width * (zoomFactor * (viewport.width / b.width)) :=
      mul_le_mul_of_nonneg_left h2 (le_of_lt hw)
    calc b.width * (zoomFactor * Min.min (viewport.width / b.width)
          (viewport.height / b.height))
        ≤ b.width * (zoomFactor * (viewport.width / b.width)) := h3
      _ = zoomFactor * viewport.width := by field_simp
  · have h1 : Min.min (viewport.width / b.width) (viewport.height / b.height)
        ≤ viewport.height / b.height := min_le_right _ _
    have h2 : zoomFactor * Min.min (viewport.width / b.width) (viewport.height / b.height)
        ≤ zoomFactor * (viewport.height / b.height) := mul_le_mul_of_nonneg_left h1 hz
    have h3 : b.height * (zoomFactor * Min.min (viewport.width / b.width)
          (viewport.height / b.height))
        ≤ b.height * (zoomFactor * (viewport.height / b.height)) :=
      mul_le_mul_of_nonneg_left h2 (le_of_lt hh)
    calc b.height * (zoomFactor * Min.min (viewport.width / b.width)
          (viewport.height / b.height))
        ≤ b.height * (zoomFactor * (viewport.height / b.height)) := h3
      _ = zoomFactor * viewport.height := by field_simp

/-- The 100×100 shape-space box of the C8 witness. -/
def layerBoxC8 : BoundingBox := ⟨⟨0, 0⟩, ⟨100, 100⟩⟩

/-- The 1000×1000 viewport of the C8 witness. -/
def viewportC8 : Rect := ⟨⟨0, 0⟩, ⟨1000, 1000⟩⟩

theorem layerBoxC8_transformed :
    layerBoxC8.applyTransformMatrix (matMul identityMatrix identityMatrix)
      = ⟨⟨0, 0⟩, ⟨100, 100⟩⟩ := by
  simp only [BoundingBox.applyTransformMatrix, BoundingBox.vertices, BoundingBox.fromPoints,
    layerBoxC8, identityMatrix, matMul, transformPos2, List.map_cons, List.map_nil,
    BoundingBox.extend, List.foldl_cons, List.foldl_nil]
  norm_num

theorem C8_witness :
    (instanceFitView layerBoxC8 identityMatrix identityMatrix viewportC8 (1 / 2)).scale = 5 ∧
    (instanceFitView layerBoxC8 identityMatrix identityMatrix viewportC8
        (1 / 2)).gerberToScreenCoords
        (layerBoxC8.applyTransformMatrix (matMul identityMatrix identityMatrix)).center
      = viewportC8.center ∧
    (layerBoxC8.applyTransformMatrix (matMul identityMatrix identityMatrix)).width
        * (instanceFitView layerBoxC8 identityMatrix identityMatrix viewportC8 (1 / 2)).scale
      ≤ (1 / 2) * viewportC8.width ∧
    (layerBoxC8.applyTransformMatrix (matMul identityMatrix identityMatrix)).height
        * (instanceFitView layerBoxC8 identityMatrix identityMatrix viewportC8 (1 / 2)).scale
      ≤ (1 / 2) * viewportC8.height := by
  have hw : 0 < (layerBoxC8.applyTransformMatrix (matMul identityMatrix identityMatrix)).width := by
    rw [layerBoxC8_transformed]
    norm_num [BoundingBox.width]
  have hh : 0 < (layerBoxC8.applyTransformMatrix (matMul identityMatrix identityMatrix)).height := by
    rw [layerBoxC8_transformed]
    norm_num [BoundingBox.height]
  have h := C8_fit_view_centers_and_bounds layerBoxC8 identityMatrix identityMatrix viewportC8
    (1 / 2) hw hh (by norm_num)
  refine ⟨?_, h.1, h.2.1, h.2.2⟩
  have heq : instanceFitView layerBoxC8 identityMatrix identityMatrix viewportC8 (1 / 2)
      = ViewState.fitView viewportC8
          (layerBoxC8.applyTransformMatrix (matMul identityMatrix identityMatrix)) (1 / 2) := rfl
  rw [heq, layerBoxC8_transformed,
    fitView_eval viewportC8 ⟨⟨0, 0⟩, ⟨100, 100⟩⟩ (1 / 2)
      (by norm_num [BoundingBox.width]) (by norm_num [BoundingBox.height])]
  simp [Rect.width, Rect.height, BoundingBox.width, BoundingBox.height, viewportC8]
  norm_num

theorem drawBbox_erase (cfg : RenderConfiguration) (bbox : BoundingBox) (c1 c2 : Color)
    (view : ViewState) (m : Matrix3) :
    (drawBbox cfg bbox c1 view m).map eraseColor
      = (drawBbox cfg bbox c2 view m).map eraseColor := by
  unfold drawBbox
  cases h : cfg.use_shape_bboxes <;> simp [h, eraseColor]

theorem renderCircle_erase (cc : Vec2) (d : ℚ) (e1 e2 : Exposure) (view : ViewState)
    (m : Matrix3) (s : Vec2) (col : Color) (n : Option ℕ) (cfg : RenderConfiguration) :
    (renderCircle ⟨cc, d, e1⟩ view m s col n cfg).map eraseColor
      = (renderCircle ⟨cc, d, e2⟩ view m s col n cfg).map eraseColor := by
  cases h : cfg.use_shape_bboxes <;> cases n <;>
    simp [renderCircle, eraseColor, drawBbox, drawShapeNumber, h,
      CircleGerberPrimitive.boundingBox]

theorem renderRectangle_erase (ro : Vec2) (w hgt : ℚ) (e1 e2 : Exposure) (view : ViewState)
    (m : Matrix3) (s : Vec2) (col : Color) (n : Option ℕ) (cfg : RenderConfiguration) :
    (renderRectangle ⟨ro, w, hgt, e1⟩ view m s col n cfg).map eraseColor
      = (renderRectangle ⟨ro, w, hgt, e2⟩ view m s col n cfg).map eraseColor := by
  cases h : cfg.use_shape_bboxes <;> cases n <;>
    simp [renderRectangle, eraseColor, drawBbox, drawShapeNumber, h,
      RectangleGerberPrimitive.boundingBox, apply_ite (List.map eraseColor), apply_ite List.head?]

theorem renderLine_erase (p0 p1 : Vec2) (w : ℚ) (e1 e2 : Exposure) (view : ViewState)
    (m : Matrix3) (s : Vec2) (col : Color) (n : Option ℕ) (cfg : RenderConfiguration) :
    (renderLine ⟨p0, p1, w, e1⟩ view m s col n cfg).map eraseColor
      = (renderLine ⟨p0, p1, w, e2⟩ view m s col n cfg).map eraseColor := by
  cases h : cfg.use_shape_bboxes <;> cases n <;>
    simp [renderLine, eraseColor, drawBbox, drawShapeNumber, h,
      LineGerberPrimitive.boundingBox]

theorem renderArc_erase (ac : Vec2) (r sa ea : ℚ) (dir : Direction) (w : ℚ) (e1 e2 : Exposure)
    (view : ViewState) (m : Matrix3) (s : Vec2) (col : Color) (n : Option ℕ)
    (cfg : RenderConfiguration) :
    (renderArc ⟨ac, r, sa, ea, dir, w, e1⟩ view m s col n cfg).map eraseColor
      = (renderArc ⟨ac, r, sa, ea, dir, w, e2⟩ view m s col n cfg).map eraseColor := by
  cases h : cfg.use_shape_bboxes <;> cases n <;>
    simp [renderArc, eraseColor, drawBbox, drawShapeNumber, h,
      ArcGerberPrimitive.boundingBox, ArcGerberPrimitive.isFullCircle, generatePoints,
      numSegments, sweepMagnitude]

theorem renderPolygon_erase (pc : Vec2) (g : PolygonGeometry) (e1 e2 : Exposure)
    (view : ViewState) (m : Matrix3) (s : Vec2) (col : Color) (n : Option ℕ)
    (cfg : RenderConfiguration) :
    (renderPolygon ⟨pc, e1, g⟩ view m s col n cfg).map eraseColor
      = (renderPolygon ⟨pc, e2, g⟩ view m s col n cfg).map eraseColor := by
  obtain ⟨verts, conv, tess⟩ := g
  cases conv <;> cases tess <;> cases h : cfg.use_shape_bboxes <;>
      cases hv : cfg.use_vertex_numbering <;> cases n <;>
    simp [renderPolygon, eraseColor, drawBbox, drawShapeNumber, h, hv,
      PolygonGerberPrimitive.boundingBox, List.map_map, Function.comp]

/-- C9: the exposure flag affects only colors — two renders of the same
primitive under the same view, transform, scale factors, base color, shape
number and configuration, differing only in the exposure flag, emit draw
calls with identical geometry (equal after erasing every color). -/
theorem C9_exposure_affects_only_color (prim : GerberPrimitive) (e1 e2 : Exposure)
    (view : ViewState) (m : Matrix3) (s : Vec2) (col : Color) (n : Option ℕ)
    (cfg : RenderConfiguration) :
    (renderPrimitive (prim.setExposure e1) view m s col n cfg).map eraseColor
      = (renderPrimitive (prim.setExposure e2) view m s col n cfg).map eraseColor := by
  cases prim with
  | circle c =>
    obtain ⟨cc, d, ce⟩ := c
    exact renderCircle_erase cc d e1 e2 view m s col n cfg
  | rectangle r =>
    obtain ⟨ro, w, hgt, re⟩ := r
    exact renderRectangle_erase ro w hgt e1 e2 view m s col n cfg
  | line l =>
    obtain ⟨p0, p1, w, le⟩ := l
    exact renderLine_erase p0 p1 w e1 e2 view m s col n cfg
  | arc a =>
    obtain ⟨ac, r, sa, ea, dir, w, ae⟩ := a
    exact renderArc_erase ac r sa ea dir w e1 e2 view m s col n cfg
  | polygon p =>
    obtain ⟨pc, pe, g⟩ := p
    exact renderPolygon_erase pc g e1 e2 view m s col n cfg

end GerberViewer
